import Mathlib

/-
Verification of the Eagle async runtime (Rust) against its specification.

The executor sources are shallowly embedded: Rust structs become Lean
structures, the worker thread loop becomes a step function on an explicit
system state, and a future is modelled by the observable behaviour of each
of its poll calls: whether it invokes the waker during that poll, and
whether it returns Ready with a value or Pending.
-/

namespace Eagle

/-- Lifecycle state of a task, from src/executor/task.rs (TaskState). -/
inductive TaskState
  | Ready
  | Running
  | Done
deriving DecidableEq

/-- Model of a boxed future: the list of its successive poll behaviours.
Each entry is (wakes, result): wakes is true when the future invokes the
context waker during that poll; result is some v when the poll returns
Ready(v) and none when it returns Pending. An exhausted list behaves as an
inert Pending poll (no wake, no value). -/
abbrev FutureSteps (T : Type) := List (Bool × Option T)

/-- One poll of the modelled future: consume the head behaviour. -/
def futureStep (f : FutureSteps T) : (Bool × Option T) × FutureSteps T :=
  match f with
  | [] => ((false, none), [])
  | s :: rest => (s, rest)

/-- Task, from src/executor/task.rs: a boxed future, a lifecycle state and
a scheduling priority. -/
structure Task (T : Type) where
  future : FutureSteps T
  state : TaskState
  priority : Nat
deriving DecidableEq

/-- Task::with_priority: initial state is Ready, priority as given. -/
def Task.with_priority (future : FutureSteps T) (priority : Nat) : Task T :=
  { future := future, state := TaskState.Ready, priority := priority }

/-- Task::new delegates to Task::with_priority with priority 0. -/
def Task.new (future : FutureSteps T) : Task T :=
  Task.with_priority future 0

/-- Result of one Task::poll call: the Poll value returned (some v for
Ready(v), none for Pending), the updated task, and whether the future
invoked the waker during the call. -/
structure PollOutcome (T : Type) where
  result : Option T
  task : Task T
  woke : Bool
deriving DecidableEq

/-- Task::poll from src/executor/task.rs lines 69 to 81: sets state to
Running, polls the inner future; on Ready sets state to Done and returns
the value; on Pending returns Pending, leaving the state field as it was
assigned on entry (Running). -/
def Task.poll (t : Task T) : PollOutcome T :=
  let running := { t with state := TaskState.Running }
  let (step, rest) := futureStep running.future
  match step.2 with
  | some v =>
      { result := some v
        task := { running with state := TaskState.Done, future := rest }
        woke := step.1 }
  | none =>
      { result := none
        task := { running with future := rest }
        woke := step.1 }

/-- Synchronous run of a pure computation: poll the future repeatedly,
ignoring pend steps, until it returns Ready; none when it never completes. -/
def sync_run : FutureSteps T → Option T
  | [] => none
  | (_, some v) :: _ => some v
  | (_, none) :: rest => sync_run rest

/-- Pure computation that wakes itself and pends n times and then returns
Ready v: the general shape of a pure future this executor can drive. -/
def pure_computation (n : Nat) (v : T) : FutureSteps T :=
  List.replicate n (true, none) ++ [(false, some v)]

/-- Future that pends forever without ever invoking its waker. -/
def forever_pending (T : Type) : FutureSteps T := []

/-
The mpmc channel of src/executor/mpmc.rs wraps std::sync::mpsc::channel,
whose delivery order is FIFO: messages are received in the order they were
sent. The channel contents are modelled as a list, oldest first.
-/

/-- Sender::send from src/executor/mpmc.rs: enqueue at the back. -/
def Sender.send (q : List A) (t : A) : List A := q ++ [t]

/-- Receiver::recv from src/executor/mpmc.rs: dequeue from the front;
none models a blocked recv on an empty channel. -/
def Receiver.recv (q : List A) : Option (A × List A) :=
  match q with
  | [] => none
  | t :: rest => some (t, rest)

/-- Drain the channel by repeated recv until empty. -/
def drain : List A → List A
  | [] => []
  | t :: rest => t :: drain rest

/-- Push a whole sequence through Sender.send. -/
def sendAll (q : List A) (ts : List A) : List A :=
  List.foldl Sender.send q ts

/-- Boolean test that a priority sequence is non-increasing. -/
def nonIncreasing : List Nat → Bool
  | [] => true
  | [_] => true
  | a :: b :: rest => decide (b ≤ a) && nonIncreasing (b :: rest)

/-
System model of the executor: src/executor/executor.rs wires one FIFO mpmc
channel, a shared completion slot is_done behind a mutex plus condvar, and
worker threads running the loop of src/executor/worker.rs. Tasks live
behind Arc of Mutex of Task; the store below gives each such shared task an
index, and the poisoned flag models a poisoned task mutex.
-/

/-- A task behind its Arc of Mutex, with the mutex poison flag. -/
structure StoredTask (T : Type) where
  task : Task T
  poisoned : Bool
deriving DecidableEq

/-- State of the executor system: the task store (index = shared task
identity), the FIFO channel contents (task indices, oldest first), the
is_done completion slot, a log of the writes made to that slot, a log of
the polls performed (task index and the state the task had when the worker
called poll on it), and the stop flag. -/
structure SysState (T : Type) where
  tasks : List (StoredTask T)
  queue : List Nat
  cell : Option T
  writes : List T
  polls : List (Nat × TaskState)
  stopped : Bool
deriving DecidableEq

/-- One iteration of the worker loop, from src/executor/worker.rs lines 66
to 110: exit when stopped; recv a task from the channel (blocked when
empty); a poisoned task mutex makes the lock fail and the worker continue,
dropping the task; otherwise poll the task with a waker that re-sends the
same shared task into the channel; on Ready(result) write the shared
is_done slot and notify the condvar; on Pending do nothing. -/
def workerStep (s : SysState T) : SysState T :=
  if s.stopped then s else
  match s.queue with
  | [] => s
  | id :: rest =>
    match s.tasks.get? id with
    | none => s
    | some st =>
      if st.poisoned then { s with queue := rest } else
      let entry := st.task.state
      let out := Task.poll st.task
      let queue1 := if out.woke then rest ++ [id] else rest
      let s1 := { s with
        tasks := s.tasks.set id { st with task := out.task }
        queue := queue1
        polls := s.polls ++ [(id, entry)] }
      match out.result with
      | some v => { s1 with cell := some v, writes := s1.writes ++ [v] }
      | none => s1

/-- Run n worker iterations. -/
def runWorker : Nat → SysState T → SysState T
  | 0, s => s
  | Nat.succ n, s => runWorker n (workerStep s)

/-- System state right after Executor::block_on created a task with
Task::new and spawned it: one stored task, its index in the channel, the
completion slot empty. -/
def spawn_init (f : FutureSteps T) : SysState T :=
  { tasks := [{ task := Task.new f, poisoned := false }]
    queue := [0]
    cell := none
    writes := []
    polls := []
    stopped := false }

/-- Drop for Executor from src/executor/executor.rs lines 163 to 179: set
the stop flag of every worker and join them. It writes nothing to the
completion slot and performs no condvar notification. -/
def executor_drop (s : SysState T) : SysState T :=
  { s with stopped := true }

/-
Model of the tail of Executor::block_on, src/executor/executor.rs lines
144 to 160: lock the slot, loop on condvar wait while the slot is none,
then take the value and return Ok, with an unreachable NoResult branch;
every lock or wait failure surfaces as PoisonError, and a failed spawn as
MpmcError.
-/

/-- ExecutorError from src/executor/executor.rs. -/
inductive ExecutorError
  | MpmcError
  | PoisonError
  | NoResult
deriving DecidableEq

/-- Outcome of one condvar wait call observed by block_on: the wait either
fails with a poison error or wakes with the current slot content. -/
inductive WaitEv (T : Type)
  | poisoned
  | woke (cell : Option T)
deriving DecidableEq

/-- Condvar wait loop of block_on: while the guarded slot is none, wait
again; a some content exits the loop; none means the caller is still
blocked after all the given wakeups. -/
def wait_loop : Option T → List (WaitEv T) → Option (Except ExecutorError (Option T))
  | some v, _ => some (Except.ok (some v))
  | none, [] => none
  | none, WaitEv.poisoned :: _ => some (Except.error ExecutorError.PoisonError)
  | none, WaitEv.woke v :: rest => wait_loop v rest

/-- Match on result.take() at the end of block_on: Some gives Ok, None
gives the NoResult error. -/
def take_result : Option T → Except ExecutorError T
  | some r => Except.ok r
  | none => Except.error ExecutorError.NoResult

/-- Executor::block_on: spawn (a send failure returns MpmcError), lock the
slot (first observation), run the condvar wait loop, then take the result.
The outer none means the call has not returned (still blocked). -/
def block_on (spawnFail : Bool) (first : WaitEv T) (evs : List (WaitEv T)) :
    Option (Except ExecutorError T) :=
  if spawnFail then some (Except.error ExecutorError.MpmcError) else
  match first with
  | WaitEv.poisoned => some (Except.error ExecutorError.PoisonError)
  | WaitEv.woke v0 =>
    match wait_loop v0 evs with
    | none => none
    | some (Except.error e) => some (Except.error e)
    | some (Except.ok r) => some (take_result r)

/-
TaskHandle::poll from src/executor/task.rs lines 154 to 158 calls
self.task.lock().unwrap(): a poisoned mutex makes the unwrap panic. The
return type Poll has no error variant at all.
-/

/-- Result of TaskHandle::poll: the Poll value on success, or a panic of
the unwrap call when the task mutex is poisoned. -/
inductive UnwrapPoll (T : Type)
  | Ready (v : T)
  | Pending
  | panicked
deriving DecidableEq

/-- TaskHandle::poll: lock().unwrap() panics on a poisoned mutex;
otherwise delegate to Task::poll. -/
def TaskHandle.poll (st : StoredTask T) : UnwrapPoll T × StoredTask T :=
  if st.poisoned then (UnwrapPoll.panicked, st) else
  let out := Task.poll st.task
  match out.result with
  | some v => (UnwrapPoll.Ready v, { st with task := out.task })
  | none => (UnwrapPoll.Pending, { st with task := out.task })

/-
Reactor. In src/executor/reactor/reactor.rs the Reactor struct only
declares an epoll fd and an fd-to-task map, and its impl block is empty:
register, deregister and run_once are absent from the sources. The
behaviour below is therefore modelled from the specification.
-/

/-- File descriptor, the key of the reactor registry. -/
abbrev Fd := Int

/-- Identity of a registered waker. -/
abbrev WakerId := Nat

/-- Modelled from the spec: the Reactor Registry, a mapping from file
descriptor to the set of wakers interested in its readiness. The source
Reactor struct declares the registry but implements no operation on it. -/
structure Reactor where
  registry : List (Fd × List WakerId)
deriving DecidableEq

/-- Wakers currently registered for a file descriptor. -/
def Reactor.wakers (r : Reactor) (fd : Fd) : List WakerId :=
  match r.registry.lookup fd with
  | some ws => ws
  | none => []

/-- Result of run_once: the updated reactor, the wakers fired, and the
returned count. -/
structure RunOnceResult where
  reactor : Reactor
  fired : List WakerId
  count : Nat
deriving DecidableEq

/-- Modelled from the spec: Reactor::run_once(timeout), absent from the
sources. It blocks in the multiplexer, which reports the ready file
descriptors (the abstract wait function applied to the given timeout); for
each ready fd it fires all wakers registered for that fd and clears the
entry (one-shot), and it returns the number of wakers fired. -/
def Reactor.run_once (r : Reactor) (timeout : Int) (wait : Int → List Fd) :
    RunOnceResult :=
  let ready := wait timeout
  let fired := (ready.map (fun fd => r.wakers fd)).flatten
  { reactor := { registry := r.registry.filter (fun e => !(ready.contains e.1)) }
    fired := fired
    count := fired.length }

/-
Helper lemmas and concrete states.
-/

/-- System state holding exactly one stored task running a pure
computation, with arbitrary task state and poll log: the shape preserved
by the worker while it drives the pure computation. -/
def pureState (v : T) (n : Nat) (st : TaskState) (pl : List (Nat × TaskState)) :
    SysState T :=
  { tasks := [{ task := { future := pure_computation n v, state := st, priority := 0 }
                poisoned := false }]
    queue := [0]
    cell := none
    writes := []
    polls := pl
    stopped := false }

/-- Driving a single pure computation for n+1 worker iterations publishes
its value to the completion slot, and writes the slot exactly once. -/
theorem runWorker_pure (v : T) :
    ∀ (n : Nat) (st : TaskState) (pl : List (Nat × TaskState)),
      (runWorker (n + 1) (pureState v n st pl)).cell = some v ∧
      (runWorker (n + 1) (pureState v n st pl)).writes = [v]
  | 0, _, _ => ⟨rfl, rfl⟩
  | Nat.succ n, st, pl => runWorker_pure v n TaskState.Running (pl ++ [(0, st)])

/-- A pure computation run synchronously to completion yields its value. -/
theorem sync_run_pure (v : T) : ∀ (n : Nat), sync_run (pure_computation n v) = some v
  | 0 => rfl
  | Nat.succ n => sync_run_pure v n

/-- A worker whose channel is empty stays blocked in recv: no progress. -/
theorem workerStep_empty (s : SysState T) (h : s.queue = []) : workerStep s = s := by
  cases hb : s.stopped <;> simp [workerStep, hb, h]

/-- Any number of iterations of a blocked worker change nothing. -/
theorem runWorker_empty_queue :
    ∀ (k : Nat) (s : SysState T), s.queue = [] → runWorker k s = s
  | 0, _, _ => rfl
  | Nat.succ k, s, h => by
      show runWorker k (workerStep s) = s
      rw [workerStep_empty s h]
      exact runWorker_empty_queue k s h

/-- With a forever pending root task the completion slot is never
written, however many worker iterations run. -/
theorem forever_pending_cell_none (T : Type) :
    ∀ (k : Nat), (runWorker k (spawn_init (forever_pending T))).cell = none
  | 0 => rfl
  | Nat.succ k => by
      show (runWorker k (workerStep (spawn_init (forever_pending T)))).cell = none
      rw [runWorker_empty_queue k _ rfl]
      rfl

/-- The condvar wait loop exits with Ok only when the slot holds a value. -/
theorem wait_loop_ok_isSome :
    ∀ (cur : Option T) (evs : List (WaitEv T)) (r : Option T),
      wait_loop cur evs = some (Except.ok r) → ∃ v, r = some v
  | some v, _, r, h => by
      simp [wait_loop] at h
      exact ⟨v, h.symm⟩
  | none, [], _, h => by simp [wait_loop] at h
  | none, WaitEv.poisoned :: _, _, h => by simp [wait_loop] at h
  | none, WaitEv.woke v :: rest, r, h => wait_loop_ok_isSome v rest r h

/-- The only error the condvar wait loop can produce is PoisonError. -/
theorem wait_loop_error_poison :
    ∀ (cur : Option T) (evs : List (WaitEv T)) (e : ExecutorError),
      wait_loop cur evs = some (Except.error e) → e = ExecutorError.PoisonError
  | some _, _, _, h => by simp [wait_loop] at h
  | none, [], _, h => by simp [wait_loop] at h
  | none, WaitEv.poisoned :: _, e, h => by
      simp [wait_loop] at h
      exact h.symm
  | none, WaitEv.woke v :: rest, e, h => wait_loop_error_poison v rest e h

/-- A caller observing an empty slot at every wakeup stays in the loop. -/
theorem wait_loop_all_none (T : Type) :
    ∀ (k : Nat),
      wait_loop (none : Option T) (List.replicate k (WaitEv.woke none)) = none
  | 0 => rfl
  | Nat.succ k => wait_loop_all_none T k

/-- Draining the FIFO channel returns its contents front to back. -/
theorem drain_id : ∀ (l : List A), drain l = l
  | [] => rfl
  | t :: rest => congrArg (fun x => t :: x) (drain_id rest)

/-- Sending a sequence appends it behind the current contents. -/
theorem sendAll_eq_append : ∀ (ts q : List A), sendAll q ts = q ++ ts := by
  intro ts
  induction ts with
  | nil => intro q; simp [sendAll]
  | cons t ts ih =>
      intro q
      have h := ih (q ++ [t])
      simp [sendAll, Sender.send, List.foldl] at h ⊢
      simp [h]

/-- Lookup misses every key removed by the readiness filter. -/
theorem lookup_filter_ready (ready : List Fd) (fd : Fd)
    (h : ready.contains fd = true) :
    ∀ (l : List (Fd × List WakerId)),
      (l.filter (fun e => !(ready.contains e.1))).lookup fd = none
  | [] => rfl
  | e :: rest => by
      by_cases hc : ready.contains e.1 = true
      · simp only [List.filter, hc, Bool.not_true]
        exact lookup_filter_ready ready fd h rest
      · have hne : (fd == e.1) = false := by
          rcases Bool.eq_false_or_eq_true (fd == e.1) with ht | hf
          · exfalso
            have heq : fd = e.1 := by simpa using ht
            rw [heq] at h
            exact hc h
          · exact hf
        simp only [List.filter, Bool.not_eq_true] at *
        simp only [hc, Bool.not_false, List.lookup, hne]
        exact lookup_filter_ready ready fd h rest

/-
Concrete states used by counterexamples and witnesses.
-/

/-- Two root tasks from two concurrent block_on invocations, each a pure
computation completing immediately with a distinct value. -/
def two_roots : SysState Nat :=
  { tasks := [{ task := Task.new [(false, some 10)], poisoned := false },
              { task := Task.new [(false, some 20)], poisoned := false }]
    queue := [0, 1]
    cell := none
    writes := []
    polls := []
    stopped := false }

/-- Single task whose future invokes its waker and then completes during
the same poll, leaving a duplicate enqueue of a Done task. -/
def wake_then_done : SysState Nat :=
  { tasks := [{ task := Task.new [(true, some 5)], poisoned := false }]
    queue := [0]
    cell := none
    writes := []
    polls := []
    stopped := false }

/-- Task stored behind a poisoned mutex. -/
def poisoned_store : StoredTask Nat :=
  { task := Task.new [(false, some 7)], poisoned := true }

/-- System holding only the poisoned task. -/
def poisoned_sys : SysState Nat :=
  { tasks := [poisoned_store]
    queue := [0]
    cell := none
    writes := []
    polls := []
    stopped := false }

/-- Two tasks pushed into the executor channel, the lower priority first. -/
def low_then_high : List (Task Nat) :=
  Sender.send (Sender.send [] (Task.with_priority [(false, some 1)] 0))
    (Task.with_priority [(false, some 2)] 9)

/-- Reactor with wakers on two file descriptors. -/
def demo_reactor : Reactor :=
  { registry := [(3, [1, 2]), (7, [4])] }

/-- Multiplexer reporting fd 3 ready whatever the timeout. -/
def demo_wait : Int → List Fd := fun _ => [3]

/-
Claim theorems.
-/

/-- Claim C1: for every pure computation that, run synchronously to
completion, yields v, block_on on the started executor returns Ok v: the
task is enqueued, the worker polls it to completion, publishes v to the
completion slot, and block_on returns the published value. -/
theorem block_on_pure_returns (n : Nat) (v : T) :
    sync_run (pure_computation n v) = some v ∧
    (runWorker (n + 1) (spawn_init (pure_computation n v))).cell = some v ∧
    block_on false
      (WaitEv.woke ((runWorker (n + 1) (spawn_init (pure_computation n v))).cell))
      [] = some (Except.ok v) := by
  have h : (runWorker (n + 1) (spawn_init (pure_computation n v))).cell = some v :=
    (runWorker_pure v n TaskState.Ready []).1
  refine ⟨sync_run_pure v n, h, ?_⟩
  rw [h]
  rfl

/-- Claim C2 counterexample: with two root tasks outstanding (two
concurrent block_on invocations share the single completion slot), the
worker publishes both results: the slot is written twice during the first
invocation, and its final content is the second task value, not the result
of the first invocation root. -/
theorem completion_cell_written_twice :
    (runWorker 2 two_roots).writes = [10, 20] ∧
    (runWorker 2 two_roots).cell = some 20 ∧
    ¬((runWorker 2 two_roots).writes.length ≤ 1) := by decide

/-- Claim C2 as amended: the worker publishes every completed task result
to the single shared completion slot, root or not; when exactly one task
exists (a single block_on of a pure computation) the slot is written
exactly once, with the root task value. -/
theorem worker_publishes_every_completion :
    (∀ (s : SysState T) (id : Nat) (rest : List Nat) (st : StoredTask T) (v : T),
      s.stopped = false → s.queue = id :: rest → s.tasks.get? id = some st →
      st.poisoned = false → (Task.poll st.task).result = some v →
      (workerStep s).writes = s.writes ++ [v]) ∧
    (∀ (n : Nat) (v : T),
      (runWorker (n + 1) (spawn_init (pure_computation n v))).writes = [v]) := by
  constructor
  · intro s id rest st v h1 h2 h3 h4 h5
    have h3g : s.tasks[id]? = some st := by
      rw [← List.get?_eq_getElem?]
      exact h3
    simp [workerStep, h1, h2, h3g, h4, h5]
  · intro n v
    exact (runWorker_pure v n TaskState.Ready []).2

/-- Claim C2 witness: the amended statement applied to the two root tasks
and to an immediately completing single root. -/
theorem worker_publishes_every_completion_witness :
    (workerStep two_roots).writes = two_roots.writes ++ [10] ∧
    (runWorker 1 (spawn_init (pure_computation 0 (42 : Nat)))).writes = [42] := by
  constructor
  · exact worker_publishes_every_completion.1 two_roots 0 [1]
      { task := Task.new [(false, some 10)], poisoned := false } 10
      rfl rfl rfl rfl rfl
  · exact worker_publishes_every_completion.2 0 42

/-- Claim C3 counterexample: a future that wakes its own waker during the
poll in which it completes leaves a duplicate of the task in the channel;
the next worker iteration polls the task although its state is Done, and
that poll resets the state to Running. -/
theorem done_task_polled_again :
    (runWorker 2 wake_then_done).polls = [(0, TaskState.Ready), (0, TaskState.Done)] ∧
    (runWorker 1 wake_then_done).tasks.get? 0 =
      some { task := { future := [], state := TaskState.Done, priority := 0 }
             poisoned := false } ∧
    (runWorker 2 wake_then_done).tasks.get? 0 =
      some { task := { future := [], state := TaskState.Running, priority := 0 }
             poisoned := false } := by decide

/-- Claim C3 as amended: the worker polls whatever task it receives from
the channel without inspecting its state, so a completed task that is
re-enqueued by a duplicate wakeup is polled again: the poll log records an
entry for the received task at its current state, Done included. -/
theorem worker_polls_regardless_of_state (s : SysState T) (id : Nat)
    (rest : List Nat) (st : StoredTask T) :
    s.stopped = false → s.queue = id :: rest → s.tasks.get? id = some st →
    st.poisoned = false →
    (workerStep s).polls = s.polls ++ [(id, st.task.state)] := by
  intro h1 h2 h3 h4
  have h3g : s.tasks[id]? = some st := by
    rw [← List.get?_eq_getElem?]
    exact h3
  cases hr : (Task.poll st.task).result with
  | none => simp [workerStep, h1, h2, h3g, h4, hr]
  | some v => simp [workerStep, h1, h2, h3g, h4, hr]

/-- Claim C3 witness: after the completing poll of the self-waking task,
the next worker iteration polls it in state Done. -/
theorem worker_polls_regardless_of_state_witness :
    (workerStep (runWorker 1 wake_then_done)).polls =
      (runWorker 1 wake_then_done).polls ++ [(0, TaskState.Done)] :=
  worker_polls_regardless_of_state (runWorker 1 wake_then_done) 0 []
    { task := { future := [], state := TaskState.Done, priority := 0 }
      poisoned := false }
    rfl rfl rfl rfl

/-- Claim C4 counterexample: the channel the executor wires for its
workers is the FIFO mpmc channel; pushing priorities 0 then 9 while no
consumer is active and draining returns them in push order [0, 9], which
is not non-increasing. -/
theorem fifo_drain_not_priority_ordered :
    (drain low_then_high).map Task.priority = [0, 9] ∧
    nonIncreasing ((drain low_then_high).map Task.priority) = false := by decide

/-- Claim C4 as amended: a drain of the executor channel returns the
tasks in the order they were pushed (FIFO); the priority field plays no
role in the order of consumption. -/
theorem mpmc_drain_fifo_order (ts : List (Task T)) :
    drain (sendAll [] ts) = ts := by
  rw [drain_id, sendAll_eq_append]
  simp

/-- Claim C5 counterexample: polling a task whose future yields Pending
leaves the state at Running, not Ready. -/
theorem pending_poll_state_not_ready :
    (Task.poll (Task.new [((false : Bool), (none : Option Nat))])).result = none ∧
    (Task.poll (Task.new [((false : Bool), (none : Option Nat))])).task.state =
      TaskState.Running ∧
    (Task.poll (Task.new [((false : Bool), (none : Option Nat))])).task.state ≠
      TaskState.Ready := by decide

/-- Claim C5 as amended: Task::poll sets the state to Running on entry; if
the inner future completes it sets the state to Done and returns the final
value; if the inner future yields Pending it returns Pending and leaves
the state at Running (the task stays re-schedulable only because the waker
re-sends the shared handle without consulting the state). -/
theorem task_poll_transitions (t : Task T) (w : Bool) (v : T)
    (rest : FutureSteps T) :
    (Task.poll { t with future := (w, some v) :: rest }).result = some v ∧
    (Task.poll { t with future := (w, some v) :: rest }).task.state =
      TaskState.Done ∧
    (Task.poll { t with future := (w, none) :: rest }).result = none ∧
    (Task.poll { t with future := (w, none) :: rest }).task.state =
      TaskState.Running :=
  ⟨rfl, rfl, rfl, rfl⟩

/-- Claim C6: dropping the executor only sets the stop flags and joins the
workers; it never writes the completion slot and never notifies the
condvar, and the block_on wait loop exits only on a published value, so a
caller blocked on a forever pending task stays blocked forever after the
drop: the claimed NoResult return never happens. -/
theorem drop_leaves_caller_blocked (T : Type) (k : Nat) :
    (executor_drop (runWorker k (spawn_init (forever_pending T)))).cell = none ∧
    block_on false (WaitEv.woke (none : Option T))
      (List.replicate k (WaitEv.woke none)) = none := by
  refine ⟨forever_pending_cell_none T k, ?_⟩
  simp [block_on, wait_loop_all_none T k]

/-- Claim C7 counterexample: TaskHandle::poll calls lock().unwrap(), so a
poisoned task mutex makes it panic; its return type Poll has no error
variant at all, so it cannot return a poisoning error. -/
theorem poisoned_handle_poll_panics :
    (TaskHandle.poll poisoned_store).1 = UnwrapPoll.panicked ∧
    (TaskHandle.poll poisoned_store).2 = poisoned_store := by decide

/-- Claim C7 as amended: the worker locks the task mutex directly; when
the lock reports poisoning it continues the loop, discarding the task
without polling it, without completing it and without surfacing an error;
TaskHandle::poll, by contrast, panics on a poisoned mutex. -/
theorem worker_skips_poisoned_task (s : SysState T) (id : Nat)
    (rest : List Nat) (st : StoredTask T) :
    s.stopped = false → s.queue = id :: rest → s.tasks.get? id = some st →
    st.poisoned = true →
    workerStep s = { s with queue := rest } := by
  intro h1 h2 h3 h4
  have h3g : s.tasks[id]? = some st := by
    rw [← List.get?_eq_getElem?]
    exact h3
  simp [workerStep, h1, h2, h3g, h4]

/-- Claim C7 witness: the amended statement applied to the system holding
only the poisoned task. -/
theorem worker_skips_poisoned_task_witness :
    workerStep poisoned_sys = { poisoned_sys with queue := [] } :=
  worker_skips_poisoned_task poisoned_sys 0 [] poisoned_store rfl rfl rfl rfl

/-- Claim C8: run_once, modelled from the spec because the source Reactor
impl is empty, fires for each ready fd exactly the wakers registered for
it, clears that fd entry (one-shot), and returns the number of wakers
fired; the timeout is passed to the multiplexer, whose real-time blocking
bound is outside the model. -/
theorem run_once_fires_and_clears (r : Reactor) (timeout : Int)
    (wait : Int → List Fd) (fd : Fd) :
    (wait timeout).contains fd = true →
    ((Reactor.run_once r timeout wait).reactor.wakers fd = [] ∧
     (∀ w, w ∈ r.wakers fd → w ∈ (Reactor.run_once r timeout wait).fired) ∧
     (Reactor.run_once r timeout wait).fired =
       ((wait timeout).map (fun f => r.wakers f)).flatten ∧
     (Reactor.run_once r timeout wait).count =
       (Reactor.run_once r timeout wait).fired.length) := by
  intro h
  refine ⟨?_, ?_, rfl, rfl⟩
  · show Reactor.wakers _ fd = []
    unfold Reactor.wakers
    rw [show (Reactor.run_once r timeout wait).reactor.registry =
      r.registry.filter (fun e => !((wait timeout).contains e.1)) from rfl]
    rw [lookup_filter_ready (wait timeout) fd h r.registry]
  · intro w hw
    show w ∈ ((wait timeout).map (fun f => r.wakers f)).flatten
    rw [List.mem_flatten]
    refine ⟨r.wakers fd, ?_, hw⟩
    exact List.mem_map_of_mem (fun f => r.wakers f) (by simpa using h)

/-- Claim C8 witness: the modelled run_once applied to a registry holding
wakers 1 and 2 on the ready fd 3 and waker 4 on the idle fd 7. -/
theorem run_once_fires_and_clears_witness :
    (demo_wait 0).contains 3 = true ∧
    ((Reactor.run_once demo_reactor 0 demo_wait).reactor.wakers 3 = [] ∧
     (∀ w, w ∈ demo_reactor.wakers 3 →
        w ∈ (Reactor.run_once demo_reactor 0 demo_wait).fired) ∧
     (Reactor.run_once demo_reactor 0 demo_wait).fired =
       ((demo_wait 0).map (fun f => demo_reactor.wakers f)).flatten ∧
     (Reactor.run_once demo_reactor 0 demo_wait).count =
       (Reactor.run_once demo_reactor 0 demo_wait).fired.length) :=
  ⟨by decide, run_once_fires_and_clears demo_reactor 0 demo_wait 3 (by decide)⟩

/-- Claim C9: priority is exactly the value supplied at construction, 0
when omitted, the initial state is Ready, and poll, which rewrites only
the state and the future, never changes the priority field. -/
theorem priority_never_changes (f : FutureSteps T) (p : Nat) (t : Task T) :
    (Task.with_priority f p).priority = p ∧
    (Task.new f).priority = 0 ∧
    (Task.new f).state = TaskState.Ready ∧
    (Task.poll t).task.priority = t.priority := by
  refine ⟨rfl, rfl, rfl, ?_⟩
  rcases t with ⟨fut, st, pr⟩
  cases fut with
  | nil => rfl
  | cons s rest =>
      rcases s with ⟨w, r⟩
      cases r <;> rfl

/-- Claim C10: the condvar wait loop of block_on exits only when the slot
holds a value, so the NoResult branch after take() is unreachable:
block_on either stays blocked, returns Ok of the published value, or
returns a send or poison error, and never returns NoResult. -/
theorem block_on_never_noresult (spawnFail : Bool) (first : WaitEv T)
    (evs : List (WaitEv T)) :
    block_on spawnFail first evs ≠ some (Except.error ExecutorError.NoResult) := by
  intro h
  cases spawnFail with
  | true => simp [block_on] at h
  | false =>
    cases first with
    | poisoned => simp [block_on] at h
    | woke v0 =>
      simp only [block_on, Bool.false_eq_true, if_false] at h
      cases hw : wait_loop v0 evs with
      | none => rw [hw] at h; exact Option.noConfusion h
      | some res =>
        rw [hw] at h
        cases res with
        | error e =>
            have he := wait_loop_error_poison v0 evs e hw
            rw [he] at h
            simp at h
        | ok r =>
            obtain ⟨v, rfl⟩ := wait_loop_ok_isSome v0 evs r hw
            simp [take_result] at h

end Eagle
